import Mathlib

/-!
Verification development for the License Detection & Risk Intelligence Engine
(license detector, license intelligence service).

Shallow embedding notes:
* JS numbers that only ever hold the exact decimal confidence values
  1.0 / 0.9 / 0.8 are modelled as natural numbers in hundredths
  (100 / 90 / 80); all comparisons performed by the code on them are exact,
  so the scaling is faithful.
* The license store (`getLicenseDatabase().getLicense`) is an external,
  read-only collaborator; it is modelled as a pure lookup function
  `String → Option License` passed in as a parameter.
* Asynchronous detection (`analyzeLicense`, which may reject) is modelled
  as a parameter `detect : Package → Option LicenseAnalysis`: `some` for a
  fulfilled promise, `none` for a rejected one.  `Promise.allSettled` over
  a batch then corresponds to `filterMap` over the batch, and the batch
  join point corresponds to the sequential per-chunk processing.
* `new Date()` timestamps are impure; the document generators take the
  rendered timestamp as an explicit `now` argument and the analysis
  metadata block (analyzedAt / scanDuration) is not modelled, as no
  claim depends on it.
* JS string truthiness (`if (pkg.license)`) is modelled by
  `jsTruthy`: a string option is truthy when it is present and non-empty.
-/

namespace SDA

/-- License categories (`LicenseCategory` enum). -/
inductive LicenseCategory where
  | permissive
  | weak_copyleft
  | copyleft
  | proprietary
  | custom
  | unknown
  | public_domain
deriving DecidableEq, Repr

/-- Obligation types (`ObligationType` enum). -/
inductive ObligationType where
  | attribution
  | copyleft
  | disclose_source
  | same_license
  | patent_grant
  | no_commercial_use
  | share_alike
  | notice_preservation
deriving DecidableEq, Repr

/-- Obligation / violation severities. -/
inductive Severity where
  | low
  | medium
  | high
  | critical
deriving DecidableEq, Repr

/-- Legal risk levels (`LegalRiskLevel` enum), ordered VERY_LOW .. CRITICAL. -/
inductive LegalRiskLevel where
  | VERY_LOW
  | LOW
  | MEDIUM
  | HIGH
  | VERY_HIGH
  | CRITICAL
deriving DecidableEq, Repr

/-- Ordinal rank of a risk level, for monotonicity statements. -/
def riskOrd : LegalRiskLevel → ℕ
  | .VERY_LOW => 0
  | .LOW => 1
  | .MEDIUM => 2
  | .HIGH => 3
  | .VERY_HIGH => 4
  | .CRITICAL => 5

/-- A license record (`License` interface).  `confidence` is in hundredths
(1.0 → 100); `deprecatedIds`, `fullText`, `url` are optional fields. -/
structure License where
  spdxId : String
  name : String
  category : LicenseCategory
  obligations : List ObligationType
  confidence : Option ℕ
  deprecatedIds : Option (List String)
  fullText : Option String
  url : Option String
deriving DecidableEq, Repr

/-- `license.confidence || 0` — JS falsy defaulting of the optional field
(an absent confidence and a 0.0 confidence both read as 0). -/
def confD (l : License) : ℕ := l.confidence.getD 0

/-- A package (`Package` interface restricted to the fields the engine reads):
name, version, optional declared license expression, optional root path. -/
structure Package where
  name : String
  version : String
  license : Option String
  path : Option String
deriving DecidableEq, Repr

/-- JS truthiness of an optional string field: present and non-empty. -/
def jsTruthy : Option String → Bool
  | some s => s ≠ ""
  | none => false

/-- A license obligation with its detail record (`LicenseObligation`). -/
structure LicenseObligation where
  type : ObligationType
  description : String
  severity : Severity
  scope : String
deriving DecidableEq, Repr

/-- Detection-method tags of an analysis. -/
inductive DetectionMethod where
  | declared
  | file_analysis
  | heuristic
  | manual
deriving DecidableEq, Repr

/-- Issue kinds reported by `detectIssues`. -/
inductive IssueType where
  | missing_license
  | conflicting_licenses
  | deprecated_license
  | unrecognized_license
deriving DecidableEq, Repr

/-- Violation / issue severity labels ('warning' | 'error' | 'critical'). -/
inductive IssueSeverity where
  | warning
  | error
  | critical
deriving DecidableEq, Repr

/-- An issue entry pushed by `detectIssues`. -/
structure Issue where
  type : IssueType
  severity : IssueSeverity
  description : String
  file : Option String
deriving DecidableEq, Repr

/-- An entry of the `licenseFiles` list: path, detected license, confidence
(in hundredths). -/
structure LicenseFileInfo where
  path : String
  license : License
  confidence : ℕ
deriving DecidableEq, Repr

/-- Per-package analysis result (`LicenseAnalysis`); the impure metadata
block (timestamps, scan duration) is not modelled. -/
structure LicenseAnalysis where
  packageName : String
  packageVersion : String
  licenses : List License
  primaryLicense : Option License
  detectionMethod : DetectionMethod
  licenseFiles : List LicenseFileInfo
  copyrightStatements : List String
  obligations : List LicenseObligation
  riskLevel : LegalRiskLevel
  issues : List Issue
deriving DecidableEq, Repr

/-- Category rules of a policy (`categoryRules` entries); the action is the
literal string checked by the code ('prohibit' etc.). -/
structure CategoryRule where
  category : LicenseCategory
  action : String
deriving DecidableEq, Repr

/-- A license policy (`LicensePolicy`). -/
structure LicensePolicy where
  name : String
  prohibitedLicenses : List String
  reviewRequiredLicenses : List String
  allowedLicenses : List String
  categoryRules : List CategoryRule
  maximumRiskLevel : LegalRiskLevel
deriving DecidableEq, Repr

/-- A policy violation entry pushed by `validatePolicy`. -/
structure Violation where
  package : String
  license : String
  violation : String
  severity : IssueSeverity
deriving DecidableEq, Repr

/-- Summary block of a compatibility report (external engine shape). -/
structure CompatSummary where
  riskScore : ℕ
deriving DecidableEq, Repr

/-- The externally produced compatibility report, restricted to the fields
read by the service (`conflicts`, `overallCompatibility`, `summary`). -/
structure CompatibilityReport where
  conflicts : List String
  overallCompatibility : String
  summary : CompatSummary
deriving DecidableEq, Repr

/-! ## Character-level string helpers

`String.trim` / `String.split` from the core library are defined through
well-founded recursion on byte positions and do not reduce in the kernel,
so the JS operations are modelled directly on the character list. -/

/-- `s.trim()`: drop whitespace from both ends. -/
def jsTrim (s : String) : String :=
  String.mk (((s.data.dropWhile Char.isWhitespace).reverse.dropWhile Char.isWhitespace).reverse)

/-- Split a character list into maximal whitespace-free words. -/
def wordsAux : List Char → List Char → List String
  | [], acc => if acc.isEmpty then [] else [String.mk acc.reverse]
  | c :: cs, acc =>
    if c.isWhitespace then
      if acc.isEmpty then wordsAux cs [] else String.mk acc.reverse :: wordsAux cs []
    else
      wordsAux cs (c :: acc)

/-- The whitespace-separated words of a string. -/
def words (s : String) : List String := wordsAux s.data []

/-- Uppercase a string (ASCII), used for the case-insensitive token match of
the OR/AND normalisation (`replace(/\s+OR\s+/gi, ' OR ')` etc.). -/
def upper (s : String) : String := String.mk (s.data.map Char.toUpper)

/-- Whether a word is an `OR`/`AND` operator token (case-insensitive). -/
def isOpToken (w : String) : Bool := upper w = "OR" || upper w = "AND"

/-- Word-level model of
`cleaned.split(/\s+(?:OR|AND)\s+/)` after the `gi` normalisation replaces:
an interior OR/AND word splits; the word immediately after a separator
cannot itself separate (its leading whitespace was consumed by the match). -/
def exprSplitAux : List String → List String → Bool → ℕ → ℕ → List (List String)
  | [], cur, _, _, _ => [cur.reverse]
  | w :: rest, cur, canSep, i, n =>
    if canSep && isOpToken w && decide (0 < i) && decide (i + 1 < n) then
      cur.reverse :: exprSplitAux rest [] false (i + 1) n
    else
      exprSplitAux rest (w :: cur) true (i + 1) n

/-- The atomic parts of a (paren-stripped) license expression. -/
def exprParts (cleaned : String) : List String :=
  let ws := words cleaned
  (exprSplitAux ws [] true 0 ws.length).map (fun g => " ".intercalate g)

/-- Strip `(` and `)` characters (`replace(/[()]/g, '')`). -/
def stripParens (s : String) : String :=
  String.mk (s.data.filter (fun c => c ≠ '(' && c ≠ ')'))

/-! ## License detector (license-detector.ts) -/

/-- `detectDeclaredLicense`: resolve the declared license expression of a
package against the store.  Exact lookup of the trimmed expression gives
confidence 1.0 (100); otherwise the expression is stripped of parentheses,
split on OR/AND tokens, and the first resolvable atomic part gives
confidence 0.8 (80). -/
def detectDeclaredLicense (store : String → Option License) (pkg : Package) :
    Option License :=
  if ¬ jsTruthy pkg.license then none
  else
    let licenseExpression := jsTrim (pkg.license.getD "")
    match store licenseExpression with
    | some l => some { l with confidence := some 100 }
    | none =>
      let cleanedExpression := stripParens licenseExpression
      (exprParts cleanedExpression).findSome? fun part =>
        (store (jsTrim part)).map fun pl => { pl with confidence := some 80 }

/-- `consolidateLicenses`: merge the declared license and the file-derived
licenses into an insertion-ordered map keyed by spdxId, keeping on
collision whichever entry has the higher confidence (strictly higher file
confidence replaces, preserving the entry position, as a JS `Map.set` on an
existing key does). -/
def consolidateLicenses (declaredLicense : Option License)
    (licenseFiles : List LicenseFileInfo) : List License :=
  let init : List License :=
    match declaredLicense with
    | some d => [d]
    | none => []
  licenseFiles.foldl
    (fun m fi =>
      match m.find? (fun x => x.spdxId = fi.license.spdxId) with
      | some existing =>
        if fi.confidence > confD existing then
          m.map (fun x => if x.spdxId = fi.license.spdxId then fi.license else x)
        else m
      | none => m ++ [fi.license])
    init

/-- Insert a license into a confidence-descending list, after all entries of
greater-or-equal confidence (the stable position). -/
def insertConfDesc (x : License) : List License → List License
  | [] => [x]
  | y :: ys => if confD y < confD x then x :: y :: ys else y :: insertConfDesc x ys

/-- Stable descending sort by defaulted confidence:
`sort((a, b) => (b.confidence || 0) - (a.confidence || 0))` — a stable
sort per ES2019, modelled by stable insertion sort (any two stable sorts of
the same comparator agree). -/
def sortByConfDesc : List License → List License
  | [] => []
  | x :: xs => insertConfDesc x (sortByConfDesc xs)

/-- `determinePrimaryLicense`: the declared license if present in the
consolidated set; otherwise the highest-confidence permissive license;
otherwise the highest-confidence license overall. -/
def determinePrimaryLicense (licenses : List License)
    (declaredLicense : Option License) : Option License :=
  if licenses.length = 0 then none
  else if licenses.length = 1 then licenses.head?
  else
    match declaredLicense.bind (fun d => licenses.find? (fun l => l.spdxId = d.spdxId)) with
    | some found => some found
    | none =>
      let permissive := licenses.filter (fun l => l.category = LicenseCategory.permissive)
      if permissive.length > 0 then (sortByConfDesc permissive).head?
      else (sortByConfDesc licenses).head?

/-- `createObligation`: the static obligation-detail table. -/
def createObligation (type : ObligationType) : LicenseObligation :=
  match type with
  | .attribution =>
    { type, description := "Must include attribution to original authors"
      severity := .medium, scope := "distribution" }
  | .copyleft =>
    { type, description := "Must release derivative works under same license"
      severity := .high, scope := "project" }
  | .disclose_source =>
    { type, description := "Must make source code available"
      severity := .high, scope := "distribution" }
  | .same_license =>
    { type, description := "Must use same license for derivative works"
      severity := .high, scope := "project" }
  | .patent_grant =>
    { type, description := "Includes patent grant and termination clauses"
      severity := .medium, scope := "component" }
  | .no_commercial_use =>
    { type, description := "Prohibits commercial use"
      severity := .critical, scope := "project" }
  | .share_alike =>
    { type, description := "Must share adaptations under same license"
      severity := .high, scope := "project" }
  | .notice_preservation =>
    { type, description := "Must preserve copyright and license notices"
      severity := .medium, scope := "file" }

/-- `calculateObligations`: deduplicate obligation types across all
consolidated licenses in first-seen order, resolving each once through the
static detail table. -/
def calculateObligations (licenses : List License) : List LicenseObligation :=
  licenses.foldl
    (fun acc l =>
      l.obligations.foldl
        (fun acc t =>
          if acc.any (fun o => o.type = t) then acc else acc ++ [createObligation t])
        acc)
    []

/-- Per-license category weight used by `assessLegalRisk`. -/
def categoryWeight : LicenseCategory → ℕ
  | .permissive => 1
  | .weak_copyleft => 3
  | .copyleft => 5
  | .proprietary => 10
  | .custom => 7
  | .unknown => 8
  | .public_domain => 0

/-- Per-obligation severity weight used by `assessLegalRisk`. -/
def severityWeight : Severity → ℕ
  | .critical => 10
  | .high => 5
  | .medium => 2
  | .low => 1

/-- The per-license breakpoint table at the end of `assessLegalRisk`. -/
def riskLevelOfScore (riskScore : ℕ) : LegalRiskLevel :=
  if riskScore ≥ 20 then .CRITICAL
  else if riskScore ≥ 15 then .VERY_HIGH
  else if riskScore ≥ 10 then .HIGH
  else if riskScore ≥ 5 then .MEDIUM
  else if riskScore ≥ 2 then .LOW
  else .VERY_LOW

/-- `assessLegalRisk`: accumulate category weights over the licenses, then
severity weights over the obligations, then map through the breakpoints. -/
def assessLegalRisk (licenses : List License)
    (obligations : List LicenseObligation) : LegalRiskLevel :=
  let riskScore := licenses.foldl (fun acc l => acc + categoryWeight l.category) 0
  let riskScore := obligations.foldl (fun acc o => acc + severityWeight o.severity) riskScore
  riskLevelOfScore riskScore

/-- `hasIncompatibleLicenses`: proprietary alongside anything else, or more
than one strong-copyleft license. -/
def hasIncompatibleLicenses (licenses : List License) : Bool :=
  let categories := licenses.map (fun l => l.category)
  let hasProprietary := categories.contains LicenseCategory.proprietary
  if hasProprietary && licenses.length > 1 then true
  else if (categories.filter (fun c => c = LicenseCategory.copyleft)).length > 1 then true
  else false

/-- Single-quote character, used to reproduce message literals. -/
def sq : String := String.mk [Char.ofNat 39]

/-- `detectIssues`: push, in order, the missing-license, conflicting-license,
per-license deprecated-license, and unrecognized-declared-license issues. -/
def detectIssues (pkg : Package) (licenses : List License)
    (declaredLicense : Option License) : List Issue :=
  let issues : List Issue := []
  let issues :=
    if licenses.length = 0 then
      issues ++ [{ type := .missing_license, severity := .error
                   description := "No license detected in package", file := none }]
    else issues
  let issues :=
    if licenses.length > 1 && hasIncompatibleLicenses licenses then
      issues ++ [{ type := .conflicting_licenses, severity := .critical
                   description := "Potentially incompatible licenses: " ++
                     ", ".intercalate (licenses.map (fun l => l.spdxId))
                   file := none }]
    else issues
  let issues :=
    licenses.foldl
      (fun acc l =>
        if (l.deprecatedIds.getD []).length > 0 then
          acc ++ [{ type := .deprecated_license, severity := .warning
                    description := "License " ++ l.spdxId ++ " has deprecated identifiers"
                    file := none }]
        else acc)
      issues
  let issues :=
    if jsTruthy pkg.license && declaredLicense.isNone then
      issues ++ [{ type := .unrecognized_license, severity := .warning
                   description := "Unrecognized license identifier: " ++ pkg.license.getD ""
                   file := none }]
    else issues
  issues

/-- `determineDetectionMethod`: declared-and-file-backed / file-only /
declared-only / neither. -/
def determineDetectionMethod (declaredLicense : Option License)
    (licenseFiles : List LicenseFileInfo) : DetectionMethod :=
  if declaredLicense.isSome && licenseFiles.length > 0 then .declared
  else if licenseFiles.length > 0 then .file_analysis
  else if declaredLicense.isSome then .heuristic
  else .manual

/-! ## License intelligence service -/

/-- `analyzeLicenses`: process the package list in batches of 10
(`batchSize = 10`); each batch is settled in full (`Promise.allSettled`),
fulfilled results are appended in order and rejected ones are dropped, and
only then does the next batch start.  The per-package detection outcome is
the `detect` parameter (`some` = fulfilled, `none` = rejected). -/
def analyzeLicenses (detect : Package → Option LicenseAnalysis) :
    List Package → List LicenseAnalysis
  | [] => []
  | p :: rest =>
    ((p :: rest).take 10).filterMap detect ++
      analyzeLicenses detect ((p :: rest).drop 10)
termination_by l => l.length
decreasing_by simp [List.length_drop]; omega

/-- The batch partition used by `analyzeLicenses`: chunks of 10 packages. -/
def batchesOf10 {α : Type} : List α → List (List α)
  | [] => []
  | x :: rest => ((x :: rest).take 10) :: batchesOf10 ((x :: rest).drop 10)
termination_by l => l.length
decreasing_by simp [List.length_drop]; omega

/-- The string value of a category enum constant, as interpolated into the
category-rule violation message (the TS enum members are string-valued). -/
def categoryName : LicenseCategory → String
  | .permissive => "permissive"
  | .weak_copyleft => "weak_copyleft"
  | .copyleft => "copyleft"
  | .proprietary => "proprietary"
  | .custom => "custom"
  | .unknown => "unknown"
  | .public_domain => "public_domain"

/-- One iteration of the inner license loop of `validatePolicy`: push, in
order, the prohibited-license, review-required, category-rule and
risk-tolerance violations for one (analysis, license) pair onto the
accumulated list (array `.includes` is list membership; `?.action ===
'prohibit'` is the match on the optional `find` result). -/
def checkLicense (policy : LicensePolicy) (analysis : LicenseAnalysis)
    (acc : List Violation) (license : License) : List Violation :=
  let acc :=
    if license.spdxId ∈ policy.prohibitedLicenses then
      acc ++ [{ package := analysis.packageName, license := license.spdxId
                violation := "License is explicitly prohibited"
                severity := .critical }]
    else acc
  let acc :=
    if license.spdxId ∈ policy.reviewRequiredLicenses ∧
        license.spdxId ∉ policy.allowedLicenses then
      acc ++ [{ package := analysis.packageName, license := license.spdxId
                violation := "License requires legal review"
                severity := .warning }]
    else acc
  let categoryRule :=
    policy.categoryRules.find? (fun rule => rule.category = license.category)
  let acc :=
    match categoryRule with
    | some rule =>
      if rule.action = "prohibit" then
        acc ++ [{ package := analysis.packageName, license := license.spdxId
                  violation := "License category " ++ sq ++
                    categoryName license.category ++ sq ++ " is prohibited"
                  severity := .error }]
      else acc
    | none => acc
  let acc :=
    if analysis.riskLevel = LegalRiskLevel.CRITICAL ∧
        policy.maximumRiskLevel ≠ LegalRiskLevel.CRITICAL then
      acc ++ [{ package := analysis.packageName, license := license.spdxId
                violation := "License risk level exceeds policy tolerance"
                severity := .critical }]
    else acc
  acc

/-- `validatePolicy`, rule-evaluation core over already-computed analyses:
for each analysis and each of its licenses, in order, push the prohibited,
review-required, category-rule and risk-tolerance violations; compliant is
`violations.length === 0`. -/
def validatePolicyCore (licenseAnalyses : List LicenseAnalysis)
    (policy : LicensePolicy) : Bool × List Violation :=
  let violations :=
    licenseAnalyses.foldl
      (fun acc analysis => analysis.licenses.foldl (checkLicense policy analysis) acc)
      []
  (violations.length = 0, violations)

/-- `validatePolicy` end to end: run batch analysis on the packages, then
evaluate the policy rules. -/
def validatePolicy (detect : Package → Option LicenseAnalysis)
    (packages : List Package) (policy : LicensePolicy) : Bool × List Violation :=
  validatePolicyCore (analyzeLicenses detect packages) policy

/-- Per-analysis weight of a risk level in `calculateRiskScore`. -/
def analysisRiskWeight : LegalRiskLevel → ℕ
  | .CRITICAL => 20
  | .VERY_HIGH => 15
  | .HIGH => 10
  | .MEDIUM => 5
  | .LOW => 2
  | .VERY_LOW => 1

/-- `Math.round(a / n)` for natural `a`, `n` (JS rounds halves up). -/
def jsRoundDiv (a n : ℕ) : ℕ := (2 * a + n) / (2 * n)

/-- `calculateRiskScore`: sum the per-analysis weights, add the
compatibility report's summary risk score, divide by the number of
analyses with rounding, and cap at 100
(`Math.min(Math.round(riskScore / licenseAnalyses.length), 100)`). -/
def calculateRiskScore (licenseAnalyses : List LicenseAnalysis)
    (compatibilityReport : CompatibilityReport) : ℕ :=
  let riskScore :=
    licenseAnalyses.foldl (fun acc a => acc + analysisRiskWeight a.riskLevel) 0
  let riskScore := riskScore + compatibilityReport.summary.riskScore
  min (jsRoundDiv riskScore licenseAnalyses.length) 100

/-- `determineOverallRisk`: project-level breakpoints on the 0–100 score. -/
def determineOverallRisk (riskScore : ℕ) : LegalRiskLevel :=
  if riskScore ≥ 80 then .CRITICAL
  else if riskScore ≥ 60 then .VERY_HIGH
  else if riskScore ≥ 40 then .HIGH
  else if riskScore ≥ 20 then .MEDIUM
  else if riskScore ≥ 10 then .LOW
  else .VERY_LOW

/-- The group key used by `groupAnalysesByLicense`:
`analysis.licenses[0]?.spdxId || 'Unknown'` (an absent first license and an
empty-string id both fall back to `'Unknown'`). -/
def groupKey (analysis : LicenseAnalysis) : String :=
  match analysis.licenses.head? with
  | some l => if l.spdxId = "" then "Unknown" else l.spdxId
  | none => "Unknown"

/-- One iteration of `groupAnalysesByLicense`: append the analysis to its
key's group (JS `Map.get(...)!.push(...)` on an existing key, preserving
the group's position), or create the group at the end on first sight of
the key (`Map.has` / `Map.set`). -/
def groupStep (groups : List (String × List LicenseAnalysis))
    (analysis : LicenseAnalysis) : List (String × List LicenseAnalysis) :=
  let key := groupKey analysis
  if groups.any (fun g => g.1 = key) then
    groups.map (fun g => if g.1 = key then (g.1, g.2 ++ [analysis]) else g)
  else
    groups ++ [(key, [analysis])]

/-- `groupAnalysesByLicense`: an insertion-ordered map from group key to the
analyses carrying it, in encounter order. -/
def groupAnalysesByLicense (licenseAnalyses : List LicenseAnalysis) :
    List (String × List LicenseAnalysis) :=
  licenseAnalyses.foldl groupStep []

/-- Rendering options (`ComplianceDocumentOptions`); the four formats are
dispatched on upstream, so the individual generators only read the layout
switches. -/
structure ComplianceDocumentOptions where
  groupByLicense : Bool
  includeLicenseTexts : Bool
  includeCopyrightNotices : Bool
  customHeader : Option String
  customFooter : Option String
deriving DecidableEq, Repr

/-- `generateTextDocument`; `now` is the rendered `new Date().toISOString()`
value. -/
def generateTextDocument (now : String) (licenseAnalyses : List LicenseAnalysis)
    (options : ComplianceDocumentOptions) : String :=
  let doc := ""
  let doc :=
    if jsTruthy options.customHeader then doc ++ options.customHeader.getD "" ++ "\n\n"
    else doc
  let doc := doc ++ "LICENSE COMPLIANCE REPORT\n"
  let doc := doc ++ String.mk (List.replicate 24 '=') ++ "\n\n"
  let doc := doc ++ "Generated: " ++ now ++ "\n\n"
  let doc :=
    if options.groupByLicense then
      (groupAnalysesByLicense licenseAnalyses).foldl
        (fun doc g =>
          let doc := doc ++ "LICENSE: " ++ g.1 ++ "\n"
          let doc := doc ++ String.mk (List.replicate 20 '-') ++ "\n"
          let doc :=
            g.2.foldl
              (fun doc analysis =>
                doc ++ "- " ++ analysis.packageName ++ "@" ++ analysis.packageVersion ++ "\n")
              doc
          let doc :=
            match g.2.head?.bind (fun a => a.licenses.head?.bind (fun l => l.fullText)) with
            | some text =>
              if options.includeLicenseTexts then
                doc ++ "\nLicense Text:\n" ++ text ++ "\n"
              else doc
            | none => doc
          doc ++ "\n")
        doc
    else
      licenseAnalyses.foldl
        (fun doc analysis =>
          let doc := doc ++ "Package: " ++ analysis.packageName ++ "@" ++
            analysis.packageVersion ++ "\n"
          let doc := doc ++ "Licenses: " ++
            ", ".intercalate (analysis.licenses.map (fun l => l.spdxId)) ++ "\n"
          let doc :=
            if options.includeCopyrightNotices && analysis.copyrightStatements.length > 0 then
              doc ++ "Copyright: " ++ "; ".intercalate analysis.copyrightStatements ++ "\n"
            else doc
          doc ++ "\n")
        doc
  let doc :=
    if jsTruthy options.customFooter then doc ++ options.customFooter.getD ""
    else doc
  doc

/-! ## Spec-side formulations

These definitions follow the spec's words, to be compared with the
definitions translated from the source. -/

/-- Spec formulation of the four policy rules for one (analysis, license)
pair, as independent checks concatenated in the stated fixed order. -/
def specPairViolations (policy : LicensePolicy) (analysis : LicenseAnalysis)
    (license : License) : List Violation :=
  (if license.spdxId ∈ policy.prohibitedLicenses then
    [{ package := analysis.packageName, license := license.spdxId
       violation := "License is explicitly prohibited"
       severity := .critical }]
  else []) ++
  (if license.spdxId ∈ policy.reviewRequiredLicenses ∧
      license.spdxId ∉ policy.allowedLicenses then
    [{ package := analysis.packageName, license := license.spdxId
       violation := "License requires legal review"
       severity := .warning }]
  else []) ++
  (match policy.categoryRules.find? (fun rule => rule.category = license.category) with
  | some rule =>
    if rule.action = "prohibit" then
      [{ package := analysis.packageName, license := license.spdxId
         violation := "License category " ++ sq ++
           categoryName license.category ++ sq ++ " is prohibited"
         severity := .error }]
    else []
  | none => []) ++
  (if analysis.riskLevel = LegalRiskLevel.CRITICAL ∧
      policy.maximumRiskLevel ≠ LegalRiskLevel.CRITICAL then
    [{ package := analysis.packageName, license := license.spdxId
       violation := "License risk level exceeds policy tolerance"
       severity := .critical }]
  else [])

/-- Spec formulation of issue detection: the four issue families emitted
independently, all applicable ones appearing — zero licenses, more than
one license with a proprietary license present or more than one strict
copyleft, per-license deprecated identifiers, and an unresolved declared
expression. -/
def specIssues (pkg : Package) (licenses : List License)
    (declaredLicense : Option License) : List Issue :=
  (if licenses = [] then
    [{ type := .missing_license, severity := .error
       description := "No license detected in package", file := none }]
  else []) ++
  (if 1 < licenses.length ∧
      (LicenseCategory.proprietary ∈ licenses.map (fun l => l.category) ∨
        1 < ((licenses.map (fun l => l.category)).filter
          (fun c => c = LicenseCategory.copyleft)).length) then
    [{ type := .conflicting_licenses, severity := .critical
       description := "Potentially incompatible licenses: " ++
         ", ".intercalate (licenses.map (fun l => l.spdxId))
       file := none }]
  else []) ++
  (licenses.flatMap fun l =>
    if (l.deprecatedIds.getD []).length > 0 then
      [{ type := .deprecated_license, severity := .warning
         description := "License " ++ l.spdxId ++ " has deprecated identifiers"
         file := none }]
    else []) ++
  (if jsTruthy pkg.license ∧ declaredLicense = none then
    [{ type := .unrecognized_license, severity := .warning
       description := "Unrecognized license identifier: " ++ pkg.license.getD ""
       file := none }]
  else [])

/-- Sum of the per-analysis risk weights. -/
def sumRiskWeights (licenseAnalyses : List LicenseAnalysis) : ℕ :=
  (licenseAnalyses.map (fun a => analysisRiskWeight a.riskLevel)).sum

/-- Spec formulation of the project risk score:
`round(mean(per-analysis risk weight) + compatibilityReport.summary.riskScore)`
clamped to [0,100].  With `n` analyses, `round(sum/n + c) = round((sum + n*c)/n)`
exactly; the lower clamp is vacuous over ℕ. -/
def claimRiskScore (licenseAnalyses : List LicenseAnalysis)
    (compatibilityReport : CompatibilityReport) : ℕ :=
  let n := licenseAnalyses.length
  min (jsRoundDiv (sumRiskWeights licenseAnalyses +
    n * compatibilityReport.summary.riskScore) n) 100

/-- Spec formulation of grouped rendering: every group of the grouped
layout is keyed by the primary license of the analyses it contains. -/
def groupedByPrimary (licenseAnalyses : List LicenseAnalysis) : Prop :=
  ∀ g ∈ groupAnalysesByLicense licenseAnalyses, ∀ a ∈ g.2,
    a.primaryLicense.map (fun l => l.spdxId) = some g.1

/-! ## Concrete fixtures -/

/-- An analysis with no licenses at the given risk level (what the detector
produces for a package with no detection signals). -/
def trivialAnalysis (nm : String) (risk : LegalRiskLevel) : LicenseAnalysis :=
  { packageName := nm, packageVersion := "1.0.0", licenses := []
    primaryLicense := none, detectionMethod := .manual, licenseFiles := []
    copyrightStatements := [], obligations := [], riskLevel := risk
    issues := [{ type := .missing_license, severity := .error
                 description := "No license detected in package", file := none }] }

/-- A compatibility report with a nonzero summary risk score. -/
def cexCompatReport : CompatibilityReport :=
  { conflicts := [], overallCompatibility := "compatible"
    summary := { riskScore := 10 } }

/-- Two minimal-risk analyses. -/
def cexAnalysesC1 : List LicenseAnalysis :=
  [trivialAnalysis "a" .VERY_LOW, trivialAnalysis "b" .VERY_LOW]

/-- GPL-3.0-only as detected from a license file (confidence 0.9). -/
def gplCex : License :=
  { spdxId := "GPL-3.0-only", name := "GNU General Public License v3.0 only"
    category := .copyleft
    obligations := [.copyleft, .disclose_source, .same_license]
    confidence := some 90, deprecatedIds := none, fullText := none, url := none }

/-- MIT as detected from a license file (confidence 0.9). -/
def mitCex : License :=
  { spdxId := "MIT", name := "MIT License", category := .permissive
    obligations := [.attribution]
    confidence := some 90, deprecatedIds := none, fullText := none, url := none }

/-- File-detection results: a `LICENSE` fingerprinting as GPL-3.0-only and a
`LICENSE.txt` fingerprinting as MIT. -/
def cexFilesGM : List LicenseFileInfo :=
  [{ path := "LICENSE", license := gplCex, confidence := 90 },
   { path := "LICENSE.txt", license := mitCex, confidence := 90 }]

/-- The consolidated license list for `cexFilesGM` with no declared license:
GPL-3.0-only first, MIT second. -/
def cexLicensesGM : List License := consolidateLicenses none cexFilesGM

/-- The package behind `cexAnalysisGM`. -/
def cexPkgGM : Package :=
  { name := "demo", version := "1.0.0", license := none, path := some "/demo" }

/-- The analysis the detector pipeline produces for `cexPkgGM`: first listed
license GPL-3.0-only, primary license MIT (tie-break rule (b)). -/
def cexAnalysisGM : LicenseAnalysis :=
  { packageName := "demo", packageVersion := "1.0.0"
    licenses := cexLicensesGM
    primaryLicense := determinePrimaryLicense cexLicensesGM none
    detectionMethod := determineDetectionMethod none cexFilesGM
    licenseFiles := cexFilesGM
    copyrightStatements := []
    obligations := calculateObligations cexLicensesGM
    riskLevel := assessLegalRisk cexLicensesGM (calculateObligations cexLicensesGM)
    issues := detectIssues cexPkgGM cexLicensesGM none }

/-- A detection environment that fails on the package named "bad" and
succeeds (with a trivial analysis) on everything else. -/
def detectStub : Package → Option LicenseAnalysis :=
  fun p => if p.name = "bad" then none else some (trivialAnalysis p.name .VERY_LOW)

/-- Three packages, the middle one failing under `detectStub`. -/
def pkgsC3 : List Package :=
  [{ name := "a", version := "1", license := none, path := none },
   { name := "bad", version := "1", license := none, path := none },
   { name := "c", version := "1", license := none, path := none }]

/-- A small concrete policy. -/
def policyFix : LicensePolicy :=
  { name := "default", prohibitedLicenses := ["GPL-3.0-only"]
    reviewRequiredLicenses := ["MPL-2.0"], allowedLicenses := ["MIT"]
    categoryRules := [{ category := .proprietary, action := "prohibit" }]
    maximumRiskLevel := .MEDIUM }

/-- The MIT record as it sits in the license store (original confidence
0.75, to make the non-mutating confidence override visible). -/
def mitStoreRecord : License :=
  { spdxId := "MIT", name := "MIT License", category := .permissive
    obligations := [.attribution]
    confidence := some 75, deprecatedIds := none, fullText := none, url := none }

/-- A one-entry license store resolving exactly the key "MIT". -/
def storeFix : String → Option License :=
  fun s => if s = "MIT" then some mitStoreRecord else none

/-- A package declaring " MIT " (whitespace exercises the trim). -/
def pkgC8 : Package :=
  { name := "left-pad", version := "2.0.0", license := some " MIT ", path := none }

/-! ## General lemmas -/

theorem foldl_append_of_step {α β : Type} (step : List β → α → List β)
    (f : α → List β) (hstep : ∀ acc x, step acc x = acc ++ f x)
    (l : List α) (init : List β) :
    l.foldl step init = init ++ l.flatMap f := by
  induction l generalizing init with
  | nil => simp
  | cons x xs ih => simp [hstep, ih]

theorem foldl_add_of_f {α : Type} (f : α → ℕ) (l : List α) (init : ℕ) :
    l.foldl (fun acc x => acc + f x) init = init + (l.map f).sum := by
  induction l generalizing init with
  | nil => simp
  | cons x xs ih =>
    simp only [List.foldl_cons, List.map_cons, List.sum_cons, ih]
    omega

theorem length_filterMap_add_countP {α β : Type} (f : α → Option β) (l : List α) :
    (l.filterMap f).length + l.countP (fun x => (f x).isNone) = l.length := by
  induction l with
  | nil => simp
  | cons x xs ih =>
    cases h : f x <;>
      simp only [List.filterMap_cons, h, List.countP_cons, Option.isNone_some,
        Option.isNone_none, List.length_cons] <;>
      simp_all <;> omega

theorem mem_insertConfDesc {y x : License} {l : List License} :
    y ∈ insertConfDesc x l ↔ y = x ∨ y ∈ l := by
  induction l with
  | nil => simp [insertConfDesc]
  | cons z zs ih =>
    simp only [insertConfDesc]
    split_ifs with h
    · simp [List.mem_cons]
    · simp only [List.mem_cons, ih]
      tauto

theorem sortByConfDesc_mem {y : License} {l : List License} :
    y ∈ sortByConfDesc l ↔ y ∈ l := by
  induction l with
  | nil => simp [sortByConfDesc]
  | cons x xs ih => simp [sortByConfDesc, mem_insertConfDesc, ih]

/-- Descending order by defaulted confidence. -/
def ConfSorted (l : List License) : Prop :=
  l.Pairwise (fun a b => confD b ≤ confD a)

theorem insertConfDesc_conf_sorted {x : License} {l : List License}
    (h : ConfSorted l) : ConfSorted (insertConfDesc x l) := by
  induction l with
  | nil => simp [insertConfDesc, ConfSorted]
  | cons z zs ih =>
    simp only [insertConfDesc]
    rw [ConfSorted, List.pairwise_cons] at h
    split_ifs with hlt
    · refine List.Pairwise.cons ?_ (List.Pairwise.cons h.1 h.2)
      intro b hb
      rcases List.mem_cons.mp hb with rfl | hb
      · omega
      · have := h.1 b hb
        omega
    · refine List.Pairwise.cons ?_ (ih h.2)
      intro b hb
      rcases mem_insertConfDesc.mp hb with rfl | hb
      · omega
      · exact h.1 b hb

theorem sortByConfDesc_conf_sorted (l : List License) :
    ConfSorted (sortByConfDesc l) := by
  induction l with
  | nil => simp [sortByConfDesc, ConfSorted]
  | cons x xs ih => exact insertConfDesc_conf_sorted ih

theorem sortByConfDesc_head_max (l : List License) (h : l ≠ []) :
    ∃ p, (sortByConfDesc l).head? = some p ∧ p ∈ l ∧
      ∀ q ∈ l, confD q ≤ confD p := by
  obtain ⟨x, hx⟩ := List.exists_mem_of_ne_nil l h
  have hxs : x ∈ sortByConfDesc l := sortByConfDesc_mem.mpr hx
  cases hs : sortByConfDesc l with
  | nil => rw [hs] at hxs; cases hxs
  | cons p t =>
    have hsorted := sortByConfDesc_conf_sorted l
    rw [hs, ConfSorted, List.pairwise_cons] at hsorted
    refine ⟨p, rfl, sortByConfDesc_mem.mp (hs ▸ List.mem_cons_self p t), ?_⟩
    intro q hq
    have : q ∈ sortByConfDesc l := sortByConfDesc_mem.mpr hq
    rw [hs] at this
    rcases List.mem_cons.mp this with rfl | hqt
    · exact le_refl _
    · exact hsorted.1 q hqt

theorem analyzeLicenses_eq_filterMap (detect : Package → Option LicenseAnalysis)
    (l : List Package) : analyzeLicenses detect l = l.filterMap detect := by
  induction l using batchesOf10.induct with
  | case1 => simp [analyzeLicenses]
  | case2 x rest ih =>
    rw [analyzeLicenses, ih, ← List.filterMap_append, List.take_append_drop]

theorem analyzeLicenses_eq_batches (detect : Package → Option LicenseAnalysis)
    (l : List Package) :
    analyzeLicenses detect l =
      (batchesOf10 l).flatMap (fun b => b.filterMap detect) := by
  induction l using batchesOf10.induct with
  | case1 => simp [analyzeLicenses, batchesOf10]
  | case2 x rest ih => rw [analyzeLicenses, batchesOf10, ih]; simp

theorem checkLicense_eq (policy : LicensePolicy) (analysis : LicenseAnalysis)
    (acc : List Violation) (license : License) :
    checkLicense policy analysis acc license =
      acc ++ specPairViolations policy analysis license := by
  simp only [checkLicense, specPairViolations]
  cases policy.categoryRules.find? (fun rule => rule.category = license.category) with
  | none => split_ifs <;> simp
  | some rule => by_cases hr : rule.action = "prohibit" <;> split_ifs <;> simp [hr]

theorem validatePolicyCore_violations (licenseAnalyses : List LicenseAnalysis)
    (policy : LicensePolicy) :
    (validatePolicyCore licenseAnalyses policy).2 =
      licenseAnalyses.flatMap (fun analysis =>
        analysis.licenses.flatMap (specPairViolations policy analysis)) := by
  simp only [validatePolicyCore]
  rw [foldl_append_of_step _
    (fun analysis => analysis.licenses.flatMap (specPairViolations policy analysis))]
  · simp
  · intro acc a
    exact foldl_append_of_step _ _ (checkLicense_eq policy a) a.licenses acc

theorem validatePolicyCore_compliant (licenseAnalyses : List LicenseAnalysis)
    (policy : LicensePolicy) :
    (validatePolicyCore licenseAnalyses policy).1 = true ↔
      (validatePolicyCore licenseAnalyses policy).2 = [] := by
  simp only [validatePolicyCore]
  simp [List.length_eq_zero]

/-! ## Claim theorems -/

/-- C6: for every batch of analyses and every policy, the violation list
produced by `validatePolicy`'s rule evaluation is exactly the concatenation,
over each (analysis, license) pair in fixed order, of the four independent
rules — prohibited license (critical), review-required and not allowed
(warning), matching category rule with action prohibit (error), analysis at
CRITICAL risk against a policy whose maximum risk level is not CRITICAL
(critical) — and the result is compliant if and only if the violation list
is empty. -/
theorem validatePolicy_rule_evaluation (licenseAnalyses : List LicenseAnalysis)
    (policy : LicensePolicy) :
    (validatePolicyCore licenseAnalyses policy).2 =
      licenseAnalyses.flatMap (fun analysis =>
        analysis.licenses.flatMap (specPairViolations policy analysis)) ∧
    ((validatePolicyCore licenseAnalyses policy).1 = true ↔
      (validatePolicyCore licenseAnalyses policy).2 = []) :=
  ⟨validatePolicyCore_violations licenseAnalyses policy,
   validatePolicyCore_compliant licenseAnalyses policy⟩

/-- C9: `validatePolicy` is deterministic — with the detection environment
(file contents and store lookups) unchanged between the two calls, both
calls return the same compliant flag and identical violation lists, same
entries in the same order. -/
theorem validatePolicy_deterministic (d₁ d₂ : Package → Option LicenseAnalysis)
    (packages : List Package) (policy : LicensePolicy)
    (h : ∀ p, d₁ p = d₂ p) :
    validatePolicy d₁ packages policy = validatePolicy d₂ packages policy ∧
    (validatePolicy d₁ packages policy).2 = (validatePolicy d₂ packages policy).2 ∧
    (validatePolicy d₁ packages policy).1 = (validatePolicy d₂ packages policy).1 := by
  have hd : d₁ = d₂ := funext h
  subst hd
  exact ⟨rfl, rfl, rfl⟩

/-- C9 witness: two runs on the same fixed inputs agree. -/
theorem validatePolicy_deterministic_witness :
    validatePolicy detectStub pkgsC3 policyFix = validatePolicy detectStub pkgsC3 policyFix :=
  (validatePolicy_deterministic detectStub detectStub pkgsC3 policyFix (fun _ => rfl)).1

/-- C10: an analysis with an empty consolidated license list contributes no
violations under any policy (every rule, the risk-tolerance rule included,
is evaluated only per (analysis, license) pair), so a batch consisting
solely of empty-license analyses — and hence a project whose packages all
detect no licenses — is reported compliant with an empty violation list. -/
theorem validatePolicy_empty_licenses_compliant (policy : LicensePolicy) :
    (∀ licenseAnalyses : List LicenseAnalysis,
      (∀ a ∈ licenseAnalyses, a.licenses = []) →
      validatePolicyCore licenseAnalyses policy = (true, [])) ∧
    (∀ (detect : Package → Option LicenseAnalysis) (packages : List Package),
      (∀ p a, detect p = some a → a.licenses = []) →
      validatePolicy detect packages policy = (true, [])) := by
  have core : ∀ licenseAnalyses : List LicenseAnalysis,
      (∀ a ∈ licenseAnalyses, a.licenses = []) →
      validatePolicyCore licenseAnalyses policy = (true, []) := by
    intro analyses hempty
    have hv : (validatePolicyCore analyses policy).2 = [] := by
      rw [validatePolicyCore_violations]
      rw [List.flatMap_eq_nil_iff]
      intro a ha
      rw [hempty a ha]
      simp
    have hc : (validatePolicyCore analyses policy).1 = true :=
      (validatePolicyCore_compliant analyses policy).mpr hv
    cases hres : validatePolicyCore analyses policy
    rw [hres] at hv hc
    simp_all
  refine ⟨core, ?_⟩
  intro detect packages hdet
  refine core (analyzeLicenses detect packages) ?_
  intro a ha
  rw [analyzeLicenses_eq_filterMap] at ha
  obtain ⟨p, _, hp⟩ := List.mem_filterMap.mp ha
  exact hdet p a hp

/-- C10 witness: a project whose packages all detect no licenses is
compliant. -/
theorem validatePolicy_empty_licenses_witness :
    validatePolicyCore [trivialAnalysis "a" .VERY_LOW] policyFix = (true, []) :=
  (validatePolicy_empty_licenses_compliant policyFix).1
    [trivialAnalysis "a" .VERY_LOW] (by decide)

/-- C3: when exactly one detection fails and the rest succeed, batch
analysis returns exactly N−1 analyses (the failing package's result is
dropped, the call is total rather than raising), and the processing is
structured as fixed-size batches of 10, each batch settled in full —
`allSettled`, modelled by `filterMap` over the batch — before the next
batch contributes. -/
theorem analyzeLicenses_one_failure (detect : Package → Option LicenseAnalysis)
    (packages : List Package)
    (h : packages.countP (fun p => (detect p).isNone) = 1) :
    (analyzeLicenses detect packages).length = packages.length - 1 ∧
    analyzeLicenses detect packages =
      (batchesOf10 packages).flatMap (fun b => b.filterMap detect) := by
  refine ⟨?_, analyzeLicenses_eq_batches detect packages⟩
  rw [analyzeLicenses_eq_filterMap]
  have := length_filterMap_add_countP detect packages
  omega

/-- C3 witness: three packages, one failing detection, yield two analyses. -/
theorem analyzeLicenses_one_failure_witness :
    pkgsC3.countP (fun p => (detectStub p).isNone) = 1 ∧
    (analyzeLicenses detectStub pkgsC3).length = pkgsC3.length - 1 :=
  ⟨by decide, (analyzeLicenses_one_failure detectStub pkgsC3 (by decide)).1⟩

/-- C1 counterexample: with two minimal-risk analyses (weight 1 each) and a
compatibility summary risk score of 10, the code computes
`round((1 + 1 + 10) / 2) = 6` (the compatibility score is divided by the
number of analyses too) while the claim's formula
`round(mean(weights) + riskScore) = round(1 + 10) = 11` differs, and the
derived overall risk differs as well (VERY_LOW versus LOW). -/
theorem calculateRiskScore_counterexample :
    calculateRiskScore cexAnalysesC1 cexCompatReport = 6 ∧
    claimRiskScore cexAnalysesC1 cexCompatReport = 11 ∧
    calculateRiskScore cexAnalysesC1 cexCompatReport ≠
      claimRiskScore cexAnalysesC1 cexCompatReport ∧
    determineOverallRisk (calculateRiskScore cexAnalysesC1 cexCompatReport) =
      LegalRiskLevel.VERY_LOW ∧
    determineOverallRisk (claimRiskScore cexAnalysesC1 cexCompatReport) =
      LegalRiskLevel.LOW := by
  refine ⟨by decide, by decide, by decide, by decide, by decide⟩

/-- C1 (amended): for every non-empty list of analyses, the project risk
score equals `min(round((sum of per-analysis weights + summary.riskScore) /
N), 100)` — the compatibility score is added to the weight sum before the
division by N, not after the mean — with no explicit lower clamp (the value
is non-negative anyway); and the overall risk is derived from the score via
the project-level breakpoints ≥80 CRITICAL, ≥60 VERY_HIGH, ≥40 HIGH,
≥20 MEDIUM, ≥10 LOW, else VERY_LOW. -/
theorem calculateRiskScore_amended (licenseAnalyses : List LicenseAnalysis)
    (compatibilityReport : CompatibilityReport) (h : licenseAnalyses ≠ []) :
    calculateRiskScore licenseAnalyses compatibilityReport =
      min (jsRoundDiv (sumRiskWeights licenseAnalyses +
        compatibilityReport.summary.riskScore) licenseAnalyses.length) 100 ∧
    (∀ s : ℕ,
      (determineOverallRisk s = .CRITICAL ↔ 80 ≤ s) ∧
      (determineOverallRisk s = .VERY_HIGH ↔ 60 ≤ s ∧ s < 80) ∧
      (determineOverallRisk s = .HIGH ↔ 40 ≤ s ∧ s < 60) ∧
      (determineOverallRisk s = .MEDIUM ↔ 20 ≤ s ∧ s < 40) ∧
      (determineOverallRisk s = .LOW ↔ 10 ≤ s ∧ s < 20) ∧
      (determineOverallRisk s = .VERY_LOW ↔ s < 10)) := by
  constructor
  · simp only [calculateRiskScore, sumRiskWeights]
    rw [foldl_add_of_f (fun a => analysisRiskWeight a.riskLevel) licenseAnalyses 0]
    simp
  · intro s
    unfold determineOverallRisk
    split_ifs <;> simp_all <;> omega

/-- C1 (amended) witness: the formula evaluated on the concrete fixture. -/
theorem calculateRiskScore_amended_witness :
    calculateRiskScore cexAnalysesC1 cexCompatReport =
      min (jsRoundDiv (sumRiskWeights cexAnalysesC1 +
        cexCompatReport.summary.riskScore) cexAnalysesC1.length) 100 :=
  (calculateRiskScore_amended cexAnalysesC1 cexCompatReport (by decide)).1

/-- C4: the per-analysis risk level over the consolidated licenses and
their deduplicated obligations is the breakpoint mapping of the weighted
score — sum of category weights plus sum of obligation severity weights —
the mapping is monotonic non-decreasing in the score, and the lower bounds
are inclusive: 20 ↦ CRITICAL, 19 ↦ VERY_HIGH (with 15 ↦ VERY_HIGH,
10 ↦ HIGH, 5 ↦ MEDIUM, 2 ↦ LOW, 1 ↦ VERY_LOW). -/
theorem assessLegalRisk_breakpoints :
    (∀ licenses : List License,
      assessLegalRisk licenses (calculateObligations licenses) =
        riskLevelOfScore ((licenses.map (fun l => categoryWeight l.category)).sum +
          ((calculateObligations licenses).map (fun o => severityWeight o.severity)).sum)) ∧
    (∀ s t : ℕ, s ≤ t → riskOrd (riskLevelOfScore s) ≤ riskOrd (riskLevelOfScore t)) ∧
    riskLevelOfScore 20 = .CRITICAL ∧ riskLevelOfScore 19 = .VERY_HIGH ∧
    riskLevelOfScore 15 = .VERY_HIGH ∧ riskLevelOfScore 10 = .HIGH ∧
    riskLevelOfScore 5 = .MEDIUM ∧ riskLevelOfScore 2 = .LOW ∧
    riskLevelOfScore 1 = .VERY_LOW := by
  refine ⟨?_, ?_, by decide, by decide, by decide, by decide, by decide, by decide, by decide⟩
  · intro licenses
    simp only [assessLegalRisk]
    rw [foldl_add_of_f (fun l => categoryWeight l.category) licenses 0,
      foldl_add_of_f (fun o => severityWeight o.severity) (calculateObligations licenses)]
    simp
  · intro s t hst
    unfold riskLevelOfScore
    split_ifs <;> simp [riskOrd] <;> omega

/-- C4 witness: monotonicity applied at the 19/20 boundary, and the
characterization evaluated on a concrete license list. -/
theorem assessLegalRisk_breakpoints_witness :
    riskOrd (riskLevelOfScore 19) ≤ riskOrd (riskLevelOfScore 20) ∧
    assessLegalRisk [mitCex] (calculateObligations [mitCex]) =
      riskLevelOfScore (([mitCex].map (fun l => categoryWeight l.category)).sum +
        ((calculateObligations [mitCex]).map (fun o => severityWeight o.severity)).sum) :=
  ⟨assessLegalRisk_breakpoints.2.1 19 20 (by decide),
   assessLegalRisk_breakpoints.1 [mitCex]⟩

/-- The conflicting-licenses trigger of the source — licenses.length > 1
together with `hasIncompatibleLicenses` — coincides with the spec's
condition: more than one license and (a proprietary license present, or
more than one strict-copyleft license). -/
theorem conflictCond_iff (licenses : List License) :
    (licenses.length > 1 && hasIncompatibleLicenses licenses) = true ↔
      1 < licenses.length ∧
        (LicenseCategory.proprietary ∈ licenses.map (fun l => l.category) ∨
          1 < ((licenses.map (fun l => l.category)).filter
            (fun c => c = LicenseCategory.copyleft)).length) := by
  simp only [hasIncompatibleLicenses]
  split_ifs with hp hc
  · simp only [Bool.and_eq_true, decide_eq_true_eq] at hp
    have hmem : LicenseCategory.proprietary ∈ licenses.map (fun l => l.category) := by
      simpa using hp.1
    simp [hp.2, hmem]
  · have hlen : 1 < licenses.length := by
      have := List.length_filter_le (fun c => decide (c = LicenseCategory.copyleft))
        (licenses.map (fun l => l.category))
      simp only [List.length_map] at this
      omega
    simp [hlen, hc]
  · simp only [Bool.and_eq_true, decide_eq_true_eq, not_and] at hp
    simp only [Bool.and_false, Bool.false_eq_true, false_iff, not_and, not_or, not_lt]
    intro h1
    constructor
    · intro hmem
      exact absurd h1 (hp (by simpa using hmem))
    · omega

/-- C7: for every detection outcome, `detectIssues` emits exactly the
concatenation of the four independent issue families, all applicable ones
appearing: empty license set → missing_license (error); more than one
license with a proprietary license present or more than one strict-copyleft
license → conflicting_licenses (critical); one deprecated_license warning
per license carrying deprecated identifiers; declared expression resolved
to no store entry → unrecognized_license (warning). -/
theorem detectIssues_eq_spec (pkg : Package) (licenses : List License)
    (declaredLicense : Option License) :
    detectIssues pkg licenses declaredLicense =
      specIssues pkg licenses declaredLicense := by
  have hdep : ∀ (acc : List Issue) (l : License),
      (if (l.deprecatedIds.getD []).length > 0 then
        acc ++ [{ type := .deprecated_license, severity := .warning
                  description := "License " ++ l.spdxId ++ " has deprecated identifiers"
                  file := none }]
      else acc) =
      acc ++ (if (l.deprecatedIds.getD []).length > 0 then
        [{ type := .deprecated_license, severity := .warning
           description := "License " ++ l.spdxId ++ " has deprecated identifiers"
           file := none }]
      else []) := by
    intro acc l
    split_ifs <;> simp
  simp only [detectIssues, specIssues]
  rw [foldl_append_of_step _ _ hdep licenses]
  simp only [conflictCond_iff]
  simp only [List.length_eq_zero, Bool.and_eq_true, Option.isNone_iff_eq_none]
  split_ifs <;> simp

/-- C5: for every non-empty consolidated license set, the primary license
is chosen by the first matching tie-break rule: (a) when the declared
license's spdxId is present in the set, the set's entry with that spdxId;
(b) otherwise, among permissive-category licenses, one of highest
confidence; (c) otherwise a highest-confidence license overall. -/
theorem determinePrimaryLicense_tie_break (licenses : List License)
    (declaredLicense : Option License) (hne : licenses ≠ []) :
    (∀ d, declaredLicense = some d →
      (∃ l ∈ licenses, l.spdxId = d.spdxId) →
      ∃ p, determinePrimaryLicense licenses declaredLicense = some p ∧
        p ∈ licenses ∧ p.spdxId = d.spdxId) ∧
    ((∀ d, declaredLicense = some d → ∀ l ∈ licenses, l.spdxId ≠ d.spdxId) →
      (licenses.filter (fun l => l.category = LicenseCategory.permissive) ≠ [] →
        ∃ p, determinePrimaryLicense licenses declaredLicense = some p ∧
          p ∈ licenses.filter (fun l => l.category = LicenseCategory.permissive) ∧
          ∀ q ∈ licenses.filter (fun l => l.category = LicenseCategory.permissive),
            confD q ≤ confD p) ∧
      (licenses.filter (fun l => l.category = LicenseCategory.permissive) = [] →
        ∃ p, determinePrimaryLicense licenses declaredLicense = some p ∧
          p ∈ licenses ∧ ∀ q ∈ licenses, confD q ≤ confD p)) := by
  have h0 : ¬ licenses.length = 0 := by
    simpa [List.length_eq_zero] using hne
  constructor
  · rintro d rfl ⟨l, hl, hspdx⟩
    by_cases h1 : licenses.length = 1
    · obtain ⟨x, rfl⟩ := List.length_eq_one.mp h1
      have hlx : l = x := by simpa using hl
      subst hlx
      exact ⟨l, by simp [determinePrimaryLicense], by simp, hspdx⟩
    · have hfind : (licenses.find? (fun a => a.spdxId = d.spdxId)).isSome := by
        rw [List.find?_isSome]
        exact ⟨l, hl, by simpa using hspdx⟩
      obtain ⟨p, hp⟩ := Option.isSome_iff_exists.mp hfind
      refine ⟨p, ?_, List.mem_of_find?_eq_some hp, by simpa using List.find?_some hp⟩
      simp only [determinePrimaryLicense, if_neg h0, if_neg h1, Option.some_bind, hp]
  · intro hnomatch
    have hbind : declaredLicense.bind
        (fun d => licenses.find? (fun a => a.spdxId = d.spdxId)) = none := by
      cases declaredLicense with
      | none => rfl
      | some d =>
        rw [Option.some_bind, List.find?_eq_none]
        intro x hx
        simpa using hnomatch d rfl x hx
    constructor
    · intro hperm
      by_cases h1 : licenses.length = 1
      · obtain ⟨x, rfl⟩ := List.length_eq_one.mp h1
        have hx : x.category = LicenseCategory.permissive := by
          by_contra hcat
          simp [List.filter_cons, hcat] at hperm
        refine ⟨x, by simp [determinePrimaryLicense], by simp [List.filter_cons, hx], ?_⟩
        intro q hq
        have : q = x := by
          have := List.mem_filter.mp hq
          simpa using this.1
        subst this
        exact le_refl _
      · obtain ⟨p, hphead, hpmem, hpmax⟩ := sortByConfDesc_head_max _ hperm
        refine ⟨p, ?_, hpmem, hpmax⟩
        have hlen : (licenses.filter (fun l => l.category = LicenseCategory.permissive)).length > 0 :=
          List.length_pos.mpr hperm
        simp only [determinePrimaryLicense, if_neg h0, if_neg h1, hbind, if_pos hlen]
        exact hphead
    · intro hpermempty
      by_cases h1 : licenses.length = 1
      · obtain ⟨x, rfl⟩ := List.length_eq_one.mp h1
        refine ⟨x, by simp [determinePrimaryLicense], by simp, ?_⟩
        intro q hq
        have : q = x := by simpa using hq
        subst this
        exact le_refl _
      · obtain ⟨p, hphead, hpmem, hpmax⟩ := sortByConfDesc_head_max licenses hne
        refine ⟨p, ?_, hpmem, hpmax⟩
        have hlen : ¬ (licenses.filter (fun l => l.category = LicenseCategory.permissive)).length > 0 := by
          simp [hpermempty]
        simp only [determinePrimaryLicense, if_neg h0, if_neg h1, hbind, if_neg hlen]
        exact hphead

/-- C5 witness: with no declared license and the consolidated list
[GPL-3.0-only (0.9), MIT (0.9)], rule (b) applies and the primary license
is the permissive MIT entry. -/
theorem determinePrimaryLicense_tie_break_witness :
    ∃ p, determinePrimaryLicense cexLicensesGM none = some p ∧
      p ∈ cexLicensesGM.filter (fun l => l.category = LicenseCategory.permissive) ∧
      ∀ q ∈ cexLicensesGM.filter (fun l => l.category = LicenseCategory.permissive),
        confD q ≤ confD p :=
  ((determinePrimaryLicense_tie_break cexLicensesGM none (by decide)).2
    (fun d hd => by cases hd)).1 (by decide)

/-- A declared license of maximal confidence survives consolidation
untouched: no file entry with confidence at most 1.0 can displace it, and
replacements keyed on other spdxIds cannot reach it. -/
theorem consolidate_fold_keeps (d : License) (files : List LicenseFileInfo)
    (hf : ∀ f ∈ files, f.confidence ≤ 100) (m : List License)
    (hd : d ∈ m) (hconf : confD d = 100)
    (huniq : ∀ x ∈ m, x.spdxId = d.spdxId → x = d) :
    d ∈ files.foldl
      (fun m fi =>
        match m.find? (fun x => x.spdxId = fi.license.spdxId) with
        | some existing =>
          if fi.confidence > confD existing then
            m.map (fun x => if x.spdxId = fi.license.spdxId then fi.license else x)
          else m
        | none => m ++ [fi.license])
      m := by
  induction files generalizing m with
  | nil => simpa
  | cons fi fs ih =>
    have hffs : ∀ f ∈ fs, f.confidence ≤ 100 := fun f hmem => hf f (by simp [hmem])
    have hfi : fi.confidence ≤ 100 := hf fi (by simp)
    simp only [List.foldl_cons]
    cases hfind : m.find? (fun x => x.spdxId = fi.license.spdxId) with
    | none =>
      simp only [hfind]
      refine ih hffs (m ++ [fi.license]) (List.mem_append_left _ hd) ?_
      intro x hx hxid
      rcases List.mem_append.mp hx with hx | hx
      · exact huniq x hx hxid
      · exfalso
        have hxfi : x = fi.license := by simpa using hx
        subst hxfi
        have := List.find?_eq_none.mp hfind d hd
        simp [← hxid] at this
    | some existing =>
      simp only [hfind]
      by_cases hgt : fi.confidence > confD existing
      · rw [if_pos hgt]
        have hne : fi.license.spdxId ≠ d.spdxId := by
          intro heq
          have hexmem : existing ∈ m := List.mem_of_find?_eq_some hfind
          have hexid : existing.spdxId = fi.license.spdxId := by
            simpa using List.find?_some hfind
          have hexd : existing = d := huniq existing hexmem (hexid.trans heq)
          rw [hexd, hconf] at hgt
          omega
        refine ih hffs _ ?_ ?_
        · refine List.mem_map.mpr ⟨d, hd, ?_⟩
          rw [if_neg (fun h => hne h.symm)]
        · intro x hx hxid
          obtain ⟨y, hy, hyx⟩ := List.mem_map.mp hx
          by_cases hyk : y.spdxId = fi.license.spdxId
          · rw [if_pos hyk] at hyx
            exact absurd (hyx ▸ hxid) hne
          · rw [if_neg hyk] at hyx
            exact hyx ▸ huniq y hy (hyx ▸ hxid)
      · rw [if_neg hgt]
        exact ih hffs m hd huniq

/-- C8: when a package's declared license expression (trimmed) exactly
matches a store entry, detection returns a copy of that record with
confidence overridden to 1.0, the consolidated set contains that copy
(file-derived entries, whose confidence never exceeds 1.0, cannot displace
it), and the store's canonical record is left unchanged — in particular its
original confidence field still reads back from the store. -/
theorem declared_exact_match_confidence (store : String → Option License)
    (pkg : Package) (lic : License) (licenseFiles : List LicenseFileInfo)
    (htruthy : jsTruthy pkg.license = true)
    (hstore : store (jsTrim (pkg.license.getD "")) = some lic)
    (hfiles : ∀ f ∈ licenseFiles, f.confidence ≤ 100) :
    detectDeclaredLicense store pkg = some { lic with confidence := some 100 } ∧
    { lic with confidence := some 100 } ∈
      consolidateLicenses (detectDeclaredLicense store pkg) licenseFiles ∧
    (store (jsTrim (pkg.license.getD ""))).map (fun l => l.confidence) =
      some lic.confidence := by
  have hdet : detectDeclaredLicense store pkg =
      some { lic with confidence := some 100 } := by
    simp only [detectDeclaredLicense, htruthy, not_true, if_false, hstore]
  refine ⟨hdet, ?_, by simp [hstore]⟩
  rw [hdet]
  simp only [consolidateLicenses]
  refine consolidate_fold_keeps _ licenseFiles hfiles _ (by simp) (by simp [confD]) ?_
  intro x hx _
  simpa using hx

/-- C8 witness: the " MIT " declaration resolves against `storeFix` with
confidence 1.0 while the store record keeps confidence 0.75. -/
theorem declared_exact_match_confidence_witness :
    detectDeclaredLicense storeFix pkgC8 =
      some { mitStoreRecord with confidence := some 100 } ∧
    { mitStoreRecord with confidence := some 100 } ∈
      consolidateLicenses (detectDeclaredLicense storeFix pkgC8) [] ∧
    (storeFix (jsTrim (pkgC8.license.getD ""))).map (fun l => l.confidence) =
      some mitStoreRecord.confidence :=
  declared_exact_match_confidence storeFix pkgC8 mitStoreRecord []
    (by decide) (by decide) (by simp)

/-- Invariant of the grouping fold: every group is non-empty and keyed by
its members' first-license key, keys are distinct, existing groups persist
with their members, and every processed analysis lands in the group keyed
by its first-license key. -/
theorem group_fold_invariant (analyses : List LicenseAnalysis)
    (groups : List (String × List LicenseAnalysis))
    (h1 : ∀ g ∈ groups, g.2 ≠ [] ∧ ∀ a ∈ g.2, groupKey a = g.1)
    (h2 : (groups.map Prod.fst).Nodup) :
    (∀ g ∈ analyses.foldl groupStep groups, g.2 ≠ [] ∧
      ∀ a ∈ g.2, groupKey a = g.1) ∧
    ((analyses.foldl groupStep groups).map Prod.fst).Nodup ∧
    (∀ g ∈ groups, ∃ g2 ∈ analyses.foldl groupStep groups,
      g2.1 = g.1 ∧ ∀ x ∈ g.2, x ∈ g2.2) ∧
    (∀ a ∈ analyses, ∃ g ∈ analyses.foldl groupStep groups,
      g.1 = groupKey a ∧ a ∈ g.2) := by
  induction analyses generalizing groups with
  | nil =>
    refine ⟨h1, h2, fun g hg => ⟨g, hg, rfl, fun x hx => hx⟩, by simp⟩
  | cons a as ih =>
    simp only [List.foldl_cons]
    have key := groupKey a
    by_cases hany : groups.any (fun g => g.1 = groupKey a)
    · have hstep : groupStep groups a =
          groups.map (fun g => if g.1 = groupKey a then (g.1, g.2 ++ [a]) else g) := by
        simp only [groupStep, if_pos hany]
      have h1' : ∀ g ∈ groupStep groups a, g.2 ≠ [] ∧ ∀ x ∈ g.2, groupKey x = g.1 := by
        rw [hstep]
        intro g' hg'
        obtain ⟨g, hg, rfl⟩ := List.mem_map.mp hg'
        by_cases hk : g.1 = groupKey a
        · rw [if_pos hk]
          refine ⟨by simp, ?_⟩
          intro x hx
          rcases List.mem_append.mp hx with hx | hx
          · exact (h1 g hg).2 x hx
          · have : x = a := by simpa using hx
            subst this
            exact hk.symm
        · rw [if_neg hk]
          exact h1 g hg
      have h2' : ((groupStep groups a).map Prod.fst).Nodup := by
        rw [hstep, List.map_map]
        have : (Prod.fst ∘ fun g : String × List LicenseAnalysis =>
            if g.1 = groupKey a then (g.1, g.2 ++ [a]) else g) = Prod.fst := by
          funext g
          by_cases hk : g.1 = groupKey a <;> simp [hk]
        rw [this]
        exact h2
      obtain ⟨H1, H2, Hpersist, Hrest⟩ := ih (groupStep groups a) h1' h2'
      have hpersist0 : ∀ g ∈ groups, ∃ g2 ∈ groupStep groups a,
          g2.1 = g.1 ∧ ∀ x ∈ g.2, x ∈ g2.2 := by
        rw [hstep]
        intro g hg
        by_cases hk : g.1 = groupKey a
        · exact ⟨(g.1, g.2 ++ [a]), List.mem_map.mpr ⟨g, hg, by rw [if_pos hk]⟩,
            rfl, fun x hx => List.mem_append_left _ hx⟩
        · exact ⟨g, List.mem_map.mpr ⟨g, hg, by rw [if_neg hk]⟩, rfl, fun x hx => hx⟩
      have ha0 : ∃ g2 ∈ groupStep groups a, g2.1 = groupKey a ∧ a ∈ g2.2 := by
        rw [hstep]
        obtain ⟨g, hg, hk⟩ := List.any_eq_true.mp hany
        simp only [decide_eq_true_eq] at hk
        exact ⟨(g.1, g.2 ++ [a]), List.mem_map.mpr ⟨g, hg, by rw [if_pos hk]⟩,
          hk, by simp⟩
      refine ⟨H1, H2, ?_, ?_⟩
      · intro g hg
        obtain ⟨g2, hg2, hid, hsub⟩ := hpersist0 g hg
        obtain ⟨g3, hg3, hid3, hsub3⟩ := Hpersist g2 hg2
        exact ⟨g3, hg3, hid3.trans hid, fun x hx => hsub3 x (hsub x hx)⟩
      · intro x hx
        rcases List.mem_cons.mp hx with rfl | hx
        · obtain ⟨g2, hg2, hid, hmem⟩ := ha0
          obtain ⟨g3, hg3, hid3, hsub3⟩ := Hpersist g2 hg2
          exact ⟨g3, hg3, hid3.trans hid, hsub3 x hmem⟩
        · exact Hrest x hx
    · have hstep : groupStep groups a = groups ++ [(groupKey a, [a])] := by
        simp only [groupStep, if_neg hany]
      have hnotin : groupKey a ∉ groups.map Prod.fst := by
        intro hmem
        obtain ⟨g, hg, hgk⟩ := List.mem_map.mp hmem
        exact hany (List.any_eq_true.mpr ⟨g, hg, by simp [hgk]⟩)
      have h1' : ∀ g ∈ groupStep groups a, g.2 ≠ [] ∧ ∀ x ∈ g.2, groupKey x = g.1 := by
        rw [hstep]
        intro g hg
        rcases List.mem_append.mp hg with hg | hg
        · exact h1 g hg
        · have : g = (groupKey a, [a]) := by simpa using hg
          subst this
          refine ⟨by simp, ?_⟩
          intro x hx
          have : x = a := by simpa using hx
          subst this
          rfl
      have h2' : ((groupStep groups a).map Prod.fst).Nodup := by
        rw [hstep]
        simp only [List.map_append, List.map_cons, List.map_nil]
        rw [List.nodup_append]
        exact ⟨h2, List.nodup_singleton _, by simpa using hnotin⟩
      obtain ⟨H1, H2, Hpersist, Hrest⟩ := ih (groupStep groups a) h1' h2'
      refine ⟨H1, H2, ?_, ?_⟩
      · intro g hg
        have : g ∈ groupStep groups a := by
          rw [hstep]; exact List.mem_append_left _ hg
        exact Hpersist g this
      · intro x hx
        rcases List.mem_cons.mp hx with rfl | hx
        · have hmem : (groupKey x, [x]) ∈ groupStep groups x := by
            rw [hstep]; simp
          obtain ⟨g3, hg3, hid3, hsub3⟩ := Hpersist _ hmem
          exact ⟨g3, hg3, hid3, hsub3 x (by simp)⟩
        · exact Hrest x hx

/-- C2 counterexample: the grouped layout keys groups by the first listed
license, not the primary license.  The detector-produced analysis for
`cexPkgGM` lists GPL-3.0-only first but selects MIT as primary license
(tie-break rule (b)), so the single group is keyed "GPL-3.0-only" while
the analysis's primary license is MIT — refuting the claim that packages
are grouped under each analysis's primary license. -/
theorem groupAnalysesByLicense_counterexample :
    ¬ groupedByPrimary [cexAnalysisGM] ∧
    groupAnalysesByLicense [cexAnalysisGM] = [("GPL-3.0-only", [cexAnalysisGM])] ∧
    cexAnalysisGM.primaryLicense.map (fun l => l.spdxId) = some "MIT" := by
  refine ⟨?_, by decide, by decide⟩
  intro hcl
  have h1 := hcl ("GPL-3.0-only", [cexAnalysisGM]) (by decide) cexAnalysisGM (by decide)
  have h2 : cexAnalysisGM.primaryLicense.map (fun l => l.spdxId) = some "MIT" := by decide
  rw [h2] at h1
  exact absurd h1 (by decide)

/-- C2 (amended): with the groupByLicense option, the text, HTML and
markdown layouts group packages under the analysis's first listed license
id ("Unknown" when the list is empty or the id is the empty string) — not
under the primary license: every group's members all carry the group's key
as first-license id, every analysis lands in the group keyed by its
first-license id, and there is exactly one group per distinct key. -/
theorem groupAnalysesByLicense_by_first (licenseAnalyses : List LicenseAnalysis) :
    (∀ g ∈ groupAnalysesByLicense licenseAnalyses, g.2 ≠ [] ∧
      ∀ a ∈ g.2, groupKey a = g.1) ∧
    (∀ a ∈ licenseAnalyses, ∃ g ∈ groupAnalysesByLicense licenseAnalyses,
      g.1 = groupKey a ∧ a ∈ g.2) ∧
    ((groupAnalysesByLicense licenseAnalyses).map Prod.fst).Nodup := by
  obtain ⟨H1, H2, _, Hmem⟩ :=
    group_fold_invariant licenseAnalyses [] (by simp) (by simp)
  exact ⟨H1, Hmem, H2⟩

/-- C2 (amended) witness: the fixture analysis lands in the group keyed by
its first-license id. -/
theorem groupAnalysesByLicense_by_first_witness :
    ∃ g ∈ groupAnalysesByLicense [cexAnalysisGM],
      g.1 = groupKey cexAnalysisGM ∧ cexAnalysisGM ∈ g.2 :=
  (groupAnalysesByLicense_by_first [cexAnalysisGM]).2.1 cexAnalysisGM (by simp)

end SDA
